import Mathlib

/-!
Verification development for the `install_web_search_mcp.py` installer.

The script is a linear five-stage pipeline: requirement check, download,
integrity verification, extraction, post-install npm setup.  We embed the
script shallowly: the filesystem is an explicit state (files as an
association list from paths to contents, a set of directories, and the
current working directory), the outside world (network, subprocesses,
zip decoding, SHA-256) is passed in as explicit parameters, and every
observable side effect (a network GET, an unpacked archive entry, an
executed subprocess command) is recorded in an event trace.
-/

set_option autoImplicit false

namespace Installer

/-- File paths are plain strings, as in the script. -/
abbrev Path := String

/-- File contents: an abstract byte sequence. -/
abbrev Content := List Nat

/-- Observable side effects of a pipeline run: one `download` per network GET
attempt, one `extractEntry` per archive member written, one `cmd` per
subprocess command executed by the post-install step. -/
inductive Event where
  | download : Event
  | extractEntry : String → Event
  | cmd : List String → Event
deriving DecidableEq, Repr

/-- Association-list lookup for the file table. -/
def lookupFile : List (Path × Content) → Path → Option Content
  | [], _ => none
  | (q, c) :: rest, p => if q = p then some c else lookupFile rest p

/-- Remove every entry for path `p` from the file table. -/
def removeFile : List (Path × Content) → Path → List (Path × Content)
  | [], _ => []
  | (q, c) :: rest, p =>
    if q = p then removeFile rest p else (q, c) :: removeFile rest p

/-- Filesystem state: regular files with contents, existing directories,
and the process's current working directory. -/
structure FS where
  files : List (Path × Content)
  dirs : List Path
  cwd : Path
deriving DecidableEq, Repr

def FS.readFile (fs : FS) (p : Path) : Option Content :=
  lookupFile fs.files p

def FS.fileExists (fs : FS) (p : Path) : Bool :=
  (fs.readFile p).isSome

def FS.dirExists (fs : FS) (p : Path) : Bool :=
  decide (p ∈ fs.dirs)

/-- Create or overwrite the file at `p` (models `open(p, 'wb')` writes and
`Path.touch`). -/
def FS.writeFile (fs : FS) (p : Path) (c : Content) : FS :=
  { fs with files := (p, c) :: removeFile fs.files p }

/-- Delete the file at `p` (models `Path.unlink`). -/
def FS.unlink (fs : FS) (p : Path) : FS :=
  { fs with files := removeFile fs.files p }

/-- Create directory `p` if absent (models `Path.mkdir(exist_ok=True)`). -/
def FS.mkdir (fs : FS) (p : Path) : FS :=
  if p ∈ fs.dirs then fs else { fs with dirs := p :: fs.dirs }

/-- Set the current working directory (models a succeeding `os.chdir`). -/
def FS.setCwd (fs : FS) (p : Path) : FS :=
  { fs with cwd := p }

/-- Join a directory and a name with a slash (models `Path.__truediv__`). -/
def joinPath (d f : String) : String :=
  d ++ "/" ++ f

/-- Split a character list at every occurrence of `sep` (the single-char
case of `str.split(sep)`). -/
def splitOnChar (sep : Char) : List Char → List (List Char)
  | [] => [[]]
  | c :: cs =>
    let r := splitOnChar sep cs
    if c = sep then [] :: r
    else
      match r with
      | [] => [[c]]
      | h :: t => (c :: h) :: t

/-- Final component of a path (models `PurePath.name`). -/
def basename (p : String) : String :=
  String.mk (((splitOnChar '/' p.data).getLast?).getD p.data)

/-- Index of the last occurrence of a dot, if any. -/
def lastDotIdx : List Char → Option Nat
  | [] => none
  | c :: cs =>
    match lastDotIdx cs with
    | some k => some (k + 1)
    | none => if c = '.' then some 0 else none

/-- Final path component without its suffix (models `PurePath.stem`:
the last dot splits off a suffix only when it is neither the first nor the
last character of the name). -/
def stem (p : String) : String :=
  let b := basename p
  let cs := b.data
  match lastDotIdx cs with
  | some k => if 0 < k ∧ k < cs.length - 1 then String.mk (cs.take k) else b
  | none => b

/-! Pinned constants of the script. -/

def DOWNLOAD_URL : String :=
  "https://github.com/mrkrsl/web-search-mcp/releases/download/v0.3.2/web-search-mcp-v0.3.2.zip"

def ZIP_NAME : String := "web-search-mcp-v0.3.2.zip"

def EXPECTED_HASH : String :=
  "1d8a2aeeda4c927fe513aea6e2f8e5775ac661ec0a15b1cab4d6d617e48dd27e"

/-- Directory holding the script, `Path(__file__).parent`. -/
def TOOLS_DIR : Path := ".strategic-claude-basic/tools"

def ZIP_PATH : Path := joinPath TOOLS_DIR ZIP_NAME

def EXTRACT_DIR : Path := joinPath TOOLS_DIR (stem ZIP_PATH)

def SETUP_MARKER : Path := joinPath EXTRACT_DIR ".setup_complete"

/-! Section: Integrity verifier (`verify_file_hash`) -/

/-- Body of the `try` block of `verify_file_hash`: open the file (raising on
an I/O error, modelled by `Except.error`) and hash its contents with the
given SHA-256 function. -/
def hashFileResult (sha : Content → String) (fs : FS) (p : Path) :
    Except String String :=
  match fs.readFile p with
  | none => Except.error "IOError"
  | some c => Except.ok (sha c)

/-- Embedding of `verify_file_hash`: compare the streamed SHA-256 digest of
the file with the expected digest; any exception is caught and yields
`false`. -/
def verify_file_hash (sha : Content → String) (fs : FS) (file_path : Path)
    (expected_hash : String) : Bool :=
  match hashFileResult sha fs file_path with
  | Except.ok actual => if actual = expected_hash then true else false
  | Except.error _ => false

/-! Section: Fetcher (`download_web_search_mcp`) -/

/-- Outcome of the single network GET: full body received, non-200 status,
an error raised by `urlopen`, or a transport error after part of the body
was already written to disk. -/
inductive NetResult where
  | ok : Content → NetResult
  | badStatus : Nat → NetResult
  | urlErr : NetResult
  | readErr : Content → NetResult

/-- Result of `download_web_search_mcp`: the returned pair
`(success, zip_file)` plus the filesystem state and the event trace. -/
structure DlResult where
  success : Bool
  zipFile : Option Path
  fs : FS
  events : List Event
deriving DecidableEq, Repr

/-- The download attempt of `download_web_search_mcp` (lines 111-164): one
GET, streamed write, then hash verification with deletion of a corrupted
download. -/
def attemptDownload (sha : Content → String) (net : NetResult)
    (zip_file : Path) (fs : FS) : DlResult :=
  match net with
  | NetResult.badStatus _ => ⟨false, none, fs, [Event.download]⟩
  | NetResult.urlErr => ⟨false, none, fs, [Event.download]⟩
  | NetResult.readErr part =>
    ⟨false, none, fs.writeFile zip_file part, [Event.download]⟩
  | NetResult.ok bytes =>
    let fs1 := fs.writeFile zip_file bytes
    if verify_file_hash sha fs1 zip_file EXPECTED_HASH then
      ⟨true, some zip_file, fs1, [Event.download]⟩
    else
      ⟨false, none, fs1.unlink zip_file, [Event.download]⟩

/-- Embedding of `download_web_search_mcp`: if the archive already exists it
is verified and trusted on a match; on a mismatch the stale file is deleted
and the download is attempted (once). -/
def download_web_search_mcp (sha : Content → String) (net : NetResult)
    (tools_dir : Path) (fs : FS) : DlResult :=
  let zip_file := joinPath tools_dir ZIP_NAME
  if fs.fileExists zip_file then
    if verify_file_hash sha fs zip_file EXPECTED_HASH then
      ⟨true, some zip_file, fs, []⟩
    else
      attemptDownload sha net zip_file (fs.unlink zip_file)
  else
    attemptDownload sha net zip_file fs

/-! Section: Extractor (`install_web_search_mcp`) -/

/-- Result of decoding the zip bytes: malformed archive or a list of
members (entry name, entry content). -/
inductive ZipContent where
  | badZip : ZipContent
  | entries : List (String × Content) → ZipContent

/-- Result of `install_web_search_mcp`: the returned pair
`(success, extract_dir)` plus filesystem state and event trace. -/
structure InstResult where
  success : Bool
  extractDir : Option Path
  fs : FS
  events : List Event
deriving DecidableEq, Repr

/-- Write every archive member into the extraction directory
(models `ZipFile.extractall`). -/
def extractAll (extract_dir : Path) (es : List (String × Content))
    (fs : FS) : FS :=
  es.foldl (fun acc e => acc.writeFile (joinPath extract_dir e.1) e.2) fs

/-- Embedding of `install_web_search_mcp`: skip when the target directory
already exists, otherwise create it, open the archive and unpack all
entries; a missing file or a malformed archive yields failure. -/
def install_web_search_mcp (unzip : Content → ZipContent) (zip_file : Path)
    (fs : FS) : InstResult :=
  let tools_dir := TOOLS_DIR
  let extract_dir := joinPath tools_dir (stem zip_file)
  if fs.dirExists extract_dir then
    ⟨true, some extract_dir, fs, []⟩
  else
    let fs1 := fs.mkdir extract_dir
    match fs1.readFile zip_file with
    | none => ⟨false, none, fs1, []⟩
    | some bytes =>
      match unzip bytes with
      | ZipContent.badZip => ⟨false, none, fs1, []⟩
      | ZipContent.entries es =>
        ⟨true, some extract_dir, extractAll extract_dir es fs1,
          es.map (fun e => Event.extractEntry e.1)⟩

/-! Section: Post-install runner (`run_npm_setup`) -/

def NPM_INSTALL : List String := ["npm", "install"]

def PLAYWRIGHT_INSTALL : List String := ["npx", "playwright", "install"]

/-- Result of `run_npm_setup`: the returned boolean plus filesystem state
and event trace. -/
structure SetupResult where
  success : Bool
  fs : FS
  events : List Event
deriving DecidableEq, Repr

/-- Embedding of `run_npm_setup`.  The `exec` parameter models
`subprocess.run(cmd, check=True)`: it returns whether the command exited
with status zero, together with its effect on the filesystem.  The relative
artifact path `dist/index.js` is resolved against the working directory at
the time of the check, and the `finally` block always restores the saved
working directory.  A failing `os.chdir` (missing directory) is caught by
the generic handler, so it returns failure with no command run. -/
def run_npm_setup (exec : List String → FS → Bool × FS) (extract_dir : Path)
    (fs : FS) : SetupResult :=
  let setup_marker := joinPath extract_dir ".setup_complete"
  if fs.fileExists setup_marker then
    ⟨true, fs, []⟩
  else
    let original_cwd := fs.cwd
    if fs.dirExists extract_dir then
      let fs1 := fs.setCwd extract_dir
      let r1 := exec NPM_INSTALL fs1
      if r1.1 then
        let r2 := exec PLAYWRIGHT_INSTALL r1.2
        if r2.1 then
          if (r2.2).fileExists (joinPath (r2.2).cwd "dist/index.js") then
            ⟨true, ((r2.2).writeFile setup_marker []).setCwd original_cwd,
              [Event.cmd NPM_INSTALL, Event.cmd PLAYWRIGHT_INSTALL]⟩
          else
            ⟨false, (r2.2).setCwd original_cwd,
              [Event.cmd NPM_INSTALL, Event.cmd PLAYWRIGHT_INSTALL]⟩
        else
          ⟨false, (r2.2).setCwd original_cwd,
            [Event.cmd NPM_INSTALL, Event.cmd PLAYWRIGHT_INSTALL]⟩
      else
        ⟨false, (r1.2).setCwd original_cwd, [Event.cmd NPM_INSTALL]⟩
    else
      ⟨false, fs, []⟩

/-! Section: Requirement checker (`check_command_version`, `check_requirements`) -/

/-- Outcome of `subprocess.run([command, "--version"], check=True)`:
captured stdout on success, a `CalledProcessError`, or a
`FileNotFoundError`. -/
inductive ProcResult where
  | ok : String → ProcResult
  | calledProcessError : ProcResult
  | fileNotFound : ProcResult

/-- The node branch of the version cleanup: `output.replace('v', '')`
removes every occurrence of the character `v`. -/
def nodeVersionStr (output : String) : String :=
  String.mk (output.data.filter (fun c => c ≠ 'v'))

def takeDigits (cs : List Char) : List Char × List Char :=
  (cs.takeWhile Char.isDigit, cs.dropWhile Char.isDigit)

/-- Try to match `\d+\.\d+\.\d+` at the start of the character list.
`\d+` is greedy and never needs to backtrack here because a dot is not a
digit. -/
def matchTriple (cs : List Char) : Option (List Char) :=
  let t1 := takeDigits cs
  if t1.1.isEmpty then none else
    match t1.2 with
    | '.' :: r2 =>
      let t2 := takeDigits r2
      if t2.1.isEmpty then none else
        match t2.2 with
        | '.' :: r4 =>
          let t3 := takeDigits r4
          if t3.1.isEmpty then none
          else some (t1.1 ++ '.' :: t2.1 ++ '.' :: t3.1)
        | _ => none
    | _ => none

/-- Leftmost match of `\d+\.\d+\.\d+` (models `re.search`). -/
def findTriple : List Char → Option (List Char)
  | [] => none
  | c :: cs =>
    match matchTriple (c :: cs) with
    | some m => some m
    | none => findTriple cs

def findVersionTriple (output : String) : Option String :=
  (findTriple output.data).map String.mk

/-- The version-string selection of `check_command_version` (lines 24-37):
node strips `v` characters, npm is taken verbatim, anything else goes
through the regex search. -/
def versionStrOf (command : String) (output : String) : Option String :=
  if command = "node" then some (nodeVersionStr output)
  else if command = "npm" then some output
  else findVersionTriple output

/-- Value of a decimal digit string (most significant digit first). -/
def digitsVal : List Char → Nat → Nat
  | [], acc => acc
  | c :: rest, acc => digitsVal rest (acc * 10 + (c.toNat - 48))

/-- Parse a nonempty all-decimal character list as a natural number. -/
def decToNat? (cs : List Char) : Option Nat :=
  if !cs.isEmpty && cs.all Char.isDigit then some (digitsVal cs 0) else none

/-- Embedding of `packaging.version.parse` restricted to release-only
versions (dotted decimal numbers); anything else raises, modelled by
`none`. -/
def parseVer (s : String) : Option (List Nat) :=
  (splitOnChar '.' s.data).mapM decToNat?

/-- Embedding of `str.strip()`: drop leading and trailing whitespace. -/
def strip (s : String) : String :=
  String.mk
    (((s.data.dropWhile Char.isWhitespace).reverse.dropWhile
      Char.isWhitespace).reverse)

/-- Release-segment comparison of `packaging.version`: compare segments
left to right, padding the shorter list with zeros. -/
def verGe : List Nat → List Nat → Bool
  | [], bs => bs.all (fun b => decide (b = 0))
  | a :: as, [] => if a = 0 then verGe as [] else true
  | a :: as, b :: bs =>
    if a = b then verGe as bs else if a > b then true else false

/-- Embedding of `check_command_version`: run the version command,
clean up its output, parse both versions and compare. -/
def check_command_version (runVer : String → ProcResult) (command : String)
    (min_version : String) : Bool × String :=
  match runVer command with
  | ProcResult.calledProcessError => (false, command ++ " command failed ❌")
  | ProcResult.fileNotFound => (false, command ++ " not found ❌")
  | ProcResult.ok stdout =>
    let output := strip stdout
    match versionStrOf command output with
    | none => (false, "Could not parse version from: " ++ output)
    | some version_str =>
      match parseVer version_str, parseVer min_version with
      | some current_version, some required_version =>
        if verGe current_version required_version then
          (true, command ++ " " ++ version_str ++ " ✅")
        else
          (false,
            command ++ " " ++ version_str ++ " (requires " ++ min_version
              ++ "+) ❌")
      | _, _ => (false, command ++ " check failed: InvalidVersion ❌")

/-- The pinned requirement list of `check_requirements`. -/
def requirements : List (String × String) :=
  [("node", "18.0.0"), ("npm", "8.0.0")]

/-- Embedding of `check_requirements`: every requirement must be met. -/
def check_requirements (runVer : String → ProcResult) : Bool :=
  requirements.foldl
    (fun all_met r =>
      if (check_command_version runVer r.1 r.2).1 then all_met else false)
    true

/-! Section: Top-level driver (`main`) -/

/-- The ambient world of one run: subprocess version output, SHA-256,
the network, the zip decoder, and the post-install commands. -/
structure World where
  runVer : String → ProcResult
  sha : Content → String
  net : NetResult
  unzip : Content → ZipContent
  exec : List String → FS → Bool × FS

/-- Result of `main`: the process exit code, the final filesystem state and
the full event trace. -/
structure MainResult where
  exitCode : Nat
  fs : FS
  events : List Event
deriving DecidableEq, Repr

/-- Embedding of `main`: requirement check, download, extraction, npm
setup, halting with exit code 1 at the first failing stage. -/
def main (w : World) (fs : FS) : MainResult :=
  if check_requirements w.runVer then
    let dl := download_web_search_mcp w.sha w.net TOOLS_DIR fs
    if dl.success then
      match dl.zipFile with
      | none => ⟨1, dl.fs, dl.events⟩
      | some zf =>
        let inst := install_web_search_mcp w.unzip zf dl.fs
        if inst.success then
          match inst.extractDir with
          | none => ⟨1, inst.fs, dl.events ++ inst.events⟩
          | some ed =>
            let setup := run_npm_setup w.exec ed inst.fs
            if setup.success then
              ⟨0, setup.fs, dl.events ++ inst.events ++ setup.events⟩
            else
              ⟨1, setup.fs, dl.events ++ inst.events ++ setup.events⟩
        else
          ⟨1, inst.fs, dl.events ++ inst.events⟩
    else
      ⟨1, dl.fs, dl.events⟩
  else
    ⟨1, fs, []⟩

/-! Section: Basic lemmas about the filesystem model -/

theorem lookupFile_removeFile (l : List (Path × Content)) (p q : Path) :
    lookupFile (removeFile l p) q = if q = p then none else lookupFile l q := by
  induction l with
  | nil => simp [removeFile, lookupFile]
  | cons hd rest ih =>
    obtain ⟨a, c⟩ := hd
    simp only [removeFile, lookupFile]
    by_cases hap : a = p <;> by_cases haq : a = q <;> by_cases hqp : q = p <;>
      simp_all [lookupFile]

theorem readFile_writeFile (fs : FS) (p q : Path) (c : Content) :
    (fs.writeFile p c).readFile q = if q = p then some c else fs.readFile q := by
  simp only [FS.writeFile, FS.readFile, lookupFile]
  rcases eq_or_ne q p with h | h
  · subst h; simp
  · simp [h, Ne.symm h, lookupFile_removeFile]

theorem readFile_unlink (fs : FS) (p q : Path) :
    (fs.unlink p).readFile q = if q = p then none else fs.readFile q := by
  simp [FS.unlink, FS.readFile, lookupFile_removeFile]

theorem fileExists_writeFile (fs : FS) (p q : Path) (c : Content) :
    (fs.writeFile p c).fileExists q =
      if q = p then true else fs.fileExists q := by
  simp only [FS.fileExists, readFile_writeFile]
  split <;> simp

theorem fileExists_unlink (fs : FS) (p q : Path) :
    (fs.unlink p).fileExists q = if q = p then false else fs.fileExists q := by
  simp only [FS.fileExists, readFile_unlink]
  split <;> simp

theorem writeFile_cwd (fs : FS) (p : Path) (c : Content) :
    (fs.writeFile p c).cwd = fs.cwd := rfl

theorem writeFile_dirs (fs : FS) (p : Path) (c : Content) :
    (fs.writeFile p c).dirs = fs.dirs := rfl

theorem setCwd_cwd (fs : FS) (p : Path) : (fs.setCwd p).cwd = p := rfl

theorem readFile_setCwd (fs : FS) (p q : Path) :
    (fs.setCwd p).readFile q = fs.readFile q := rfl

theorem fileExists_setCwd (fs : FS) (p q : Path) :
    (fs.setCwd p).fileExists q = fs.fileExists q := rfl

theorem mkdir_files (fs : FS) (p : Path) : (fs.mkdir p).files = fs.files := by
  unfold FS.mkdir; split <;> rfl

theorem mkdir_cwd (fs : FS) (p : Path) : (fs.mkdir p).cwd = fs.cwd := by
  unfold FS.mkdir; split <;> rfl

theorem readFile_mkdir (fs : FS) (p q : Path) :
    (fs.mkdir p).readFile q = fs.readFile q := by
  simp [FS.readFile, mkdir_files]

theorem fileExists_mkdir (fs : FS) (p q : Path) :
    (fs.mkdir p).fileExists q = fs.fileExists q := by
  simp [FS.fileExists, readFile_mkdir]

theorem dirExists_mkdir_self (fs : FS) (p : Path) :
    (fs.mkdir p).dirExists p = true := by
  unfold FS.mkdir FS.dirExists
  split <;> simp_all

theorem extractAll_dirs (ed : Path) (es : List (String × Content)) (fs : FS) :
    (extractAll ed es fs).dirs = fs.dirs := by
  induction es generalizing fs with
  | nil => rfl
  | cons e rest ih => simp only [extractAll, List.foldl_cons] at *; rw [ih]; rfl

theorem extractAll_fileExists_mono (ed : Path) (es : List (String × Content))
    (fs : FS) (p : Path) (h : fs.fileExists p = true) :
    (extractAll ed es fs).fileExists p = true := by
  induction es generalizing fs with
  | nil => simpa [extractAll] using h
  | cons e rest ih =>
    simp only [extractAll, List.foldl_cons] at *
    exact ih _ (by rw [fileExists_writeFile]; split <;> simp [h])

theorem extractAll_fileExists_mem (ed : Path) (es : List (String × Content))
    (fs : FS) : ∀ e ∈ es,
      (extractAll ed es fs).fileExists (joinPath ed e.1) = true := by
  induction es generalizing fs with
  | nil => simp
  | cons hd rest ih =>
    intro e he
    simp only [extractAll, List.foldl_cons] at *
    rcases List.mem_cons.mp he with h | h
    · subst h
      exact extractAll_fileExists_mono _ _ _ _
        (by rw [fileExists_writeFile]; simp)
    · exact ih _ e h

/-! Section: Claim theorems -/

/-- C7: after `run_npm_setup` returns, on every path — marker-skip, full
success, failed command, missing artifact, or exception — the process's
current working directory equals its value before the call began. -/
theorem C7_cwd_restored (exec : List String → FS → Bool × FS)
    (extract_dir : Path) (fs : FS) :
    ((run_npm_setup exec extract_dir fs).fs).cwd = fs.cwd := by
  simp only [run_npm_setup]
  split_ifs <;> rfl

/-- C8: for the command `node`, the cleanup applied by
`check_command_version` turns every output of the form `v` followed by a
dotted version (digits and dots) into exactly that dotted version: no
character other than the `v` prefix is removed. -/
theorem C8_node_version_strip (d : String)
    (hd : ∀ c ∈ d.data, c.isDigit = true ∨ c = '.') :
    nodeVersionStr ("v" ++ d) = d ∧
    versionStrOf "node" ("v" ++ d) = some d := by
  have hmk : ∀ s : String, String.mk s.data = s := by intro s; cases s; rfl
  have hfilter : (("v" ++ d).data).filter (fun c => c ≠ 'v') = d.data := by
    rw [String.data_append, List.filter_append]
    have h1 : (("v" : String).data).filter (fun c => c ≠ 'v') = [] := by decide
    have h2 : d.data.filter (fun c => c ≠ 'v') = d.data := by
      rw [List.filter_eq_self]
      intro c hc
      rcases hd c hc with h | h
      · simp only [ne_eq, decide_eq_true_eq]
        intro he
        subst he
        exact absurd h (by decide)
      · subst h; decide
    rw [h1, h2, List.nil_append]
  have hnode : nodeVersionStr ("v" ++ d) = d := by
    unfold nodeVersionStr
    rw [hfilter, hmk]
  exact ⟨hnode, by simp [versionStrOf, hnode]⟩

/-- C8 witness: the node output `v18.17.0` parses to `18.17.0`. -/
theorem C8_node_version_strip_witness :
    nodeVersionStr ("v" ++ "18.17.0") = "18.17.0" ∧
    versionStrOf "node" ("v" ++ "18.17.0") = some "18.17.0" :=
  C8_node_version_strip "18.17.0" (by decide)

/-- C10: `verify_file_hash` is total: it always returns a boolean, an
unreadable file yields `false` rather than a propagated exception, and it
returns `true` exactly when the file is readable and its digest matches. -/
theorem C10_verify_file_hash_total (sha : Content → String) (fs : FS)
    (p : Path) (expected : String) :
    (verify_file_hash sha fs p expected = true ∨
      verify_file_hash sha fs p expected = false) ∧
    (fs.readFile p = none → verify_file_hash sha fs p expected = false) ∧
    (verify_file_hash sha fs p expected = true ↔
      ∃ c, fs.readFile p = some c ∧ sha c = expected) := by
  refine ⟨by cases h : verify_file_hash sha fs p expected <;> simp, ?_, ?_⟩
  · intro h
    simp [verify_file_hash, hashFileResult, h]
  · unfold verify_file_hash hashFileResult
    cases hread : fs.readFile p with
    | none => simp
    | some c =>
      simp only
      split_ifs with heq
      · simp only [true_iff]
        exact ⟨c, rfl, heq⟩
      · simp only [false_iff, not_exists, not_and]
        intro c' hc'
        cases hc'
        exact heq

/-- C10 witness: hashing a missing file reports failure instead of
raising. -/
theorem C10_verify_file_hash_total_witness :
    verify_file_hash (fun _ => "deadbeef") ⟨[], [], "/"⟩ "no-such-file"
      "deadbeef" = false :=
  (C10_verify_file_hash_total (fun _ => "deadbeef") ⟨[], [], "/"⟩
    "no-such-file" "deadbeef").2.1 rfl

/-- C1: after a fully successful run (verified archive on disk, extraction
directory present, completion marker present), a second run does no work:
the fetcher succeeds by re-verifying the existing file (no network GET for
any network behavior), the extractor succeeds without touching the archive,
and the npm setup succeeds without running any command — all with an empty
event trace and an unchanged filesystem. -/
theorem C1_second_run_skips_all_work (sha : Content → String)
    (net : NetResult) (unzip : Content → ZipContent)
    (exec : List String → FS → Bool × FS) (fs : FS) (c : Content)
    (hread : fs.readFile ZIP_PATH = some c)
    (hsha : sha c = EXPECTED_HASH)
    (hdir : fs.dirExists EXTRACT_DIR = true)
    (hmark : fs.fileExists SETUP_MARKER = true) :
    download_web_search_mcp sha net TOOLS_DIR fs =
      ⟨true, some ZIP_PATH, fs, []⟩ ∧
    install_web_search_mcp unzip ZIP_PATH fs =
      ⟨true, some EXTRACT_DIR, fs, []⟩ ∧
    run_npm_setup exec EXTRACT_DIR fs = ⟨true, fs, []⟩ := by
  have hver : verify_file_hash sha fs (joinPath TOOLS_DIR ZIP_NAME)
      EXPECTED_HASH = true := by
    have hread' : fs.readFile (joinPath TOOLS_DIR ZIP_NAME) = some c := hread
    simp [verify_file_hash, hashFileResult, hread', hsha]
  have hex : fs.fileExists (joinPath TOOLS_DIR ZIP_NAME) = true := by
    have hread' : fs.readFile (joinPath TOOLS_DIR ZIP_NAME) = some c := hread
    simp [FS.fileExists, hread']
  refine ⟨?_, ?_, ?_⟩
  · show download_web_search_mcp sha net TOOLS_DIR fs =
      ⟨true, some (joinPath TOOLS_DIR ZIP_NAME), fs, []⟩
    simp [download_web_search_mcp, hex, hver]
  · have hdir' : fs.dirExists (joinPath TOOLS_DIR (stem ZIP_PATH)) = true :=
      hdir
    show install_web_search_mcp unzip ZIP_PATH fs =
      ⟨true, some (joinPath TOOLS_DIR (stem ZIP_PATH)), fs, []⟩
    simp [install_web_search_mcp, hdir']
  · have hmark' :
        fs.fileExists (joinPath EXTRACT_DIR ".setup_complete") = true := hmark
    simp [run_npm_setup, hmark']

/-- C1 witness: a concrete fully-installed filesystem state on which the
second run of all three stages is a no-op. -/
theorem C1_second_run_skips_all_work_witness :
    download_web_search_mcp (fun _ => EXPECTED_HASH) NetResult.urlErr
        TOOLS_DIR ⟨[(ZIP_PATH, [0]), (SETUP_MARKER, [])], [EXTRACT_DIR], "/"⟩ =
      ⟨true, some ZIP_PATH,
        ⟨[(ZIP_PATH, [0]), (SETUP_MARKER, [])], [EXTRACT_DIR], "/"⟩, []⟩ ∧
    install_web_search_mcp (fun _ => ZipContent.badZip) ZIP_PATH
        ⟨[(ZIP_PATH, [0]), (SETUP_MARKER, [])], [EXTRACT_DIR], "/"⟩ =
      ⟨true, some EXTRACT_DIR,
        ⟨[(ZIP_PATH, [0]), (SETUP_MARKER, [])], [EXTRACT_DIR], "/"⟩, []⟩ ∧
    run_npm_setup (fun _ g => (true, g)) EXTRACT_DIR
        ⟨[(ZIP_PATH, [0]), (SETUP_MARKER, [])], [EXTRACT_DIR], "/"⟩ =
      ⟨true, ⟨[(ZIP_PATH, [0]), (SETUP_MARKER, [])], [EXTRACT_DIR], "/"⟩, []⟩ :=
  C1_second_run_skips_all_work (fun _ => EXPECTED_HASH) NetResult.urlErr
    (fun _ => ZipContent.badZip) (fun _ g => (true, g))
    ⟨[(ZIP_PATH, [0]), (SETUP_MARKER, [])], [EXTRACT_DIR], "/"⟩ [0]
    (by decide) rfl (by decide) (by decide)

/-- C2: a pre-existing archive whose digest differs from the pinned value
makes the verifier report failure; the fetcher deletes the stale file,
re-downloads exactly once (one `download` event), and when the fresh bytes
also fail verification the fresh file is deleted and the fetcher fails,
leaving no archive on disk. -/
theorem C2_mismatch_single_retry (sha : Content → String) (fs : FS)
    (c0 bytes : Content)
    (hread : fs.readFile ZIP_PATH = some c0)
    (hc0 : sha c0 ≠ EXPECTED_HASH)
    (hbytes : sha bytes ≠ EXPECTED_HASH) :
    verify_file_hash sha fs ZIP_PATH EXPECTED_HASH = false ∧
    download_web_search_mcp sha (NetResult.ok bytes) TOOLS_DIR fs =
      ⟨false, none,
        ((fs.unlink ZIP_PATH).writeFile ZIP_PATH bytes).unlink ZIP_PATH,
        [Event.download]⟩ ∧
    ((download_web_search_mcp sha (NetResult.ok bytes) TOOLS_DIR
      fs).fs).fileExists ZIP_PATH = false := by
  have hread' : fs.readFile (joinPath TOOLS_DIR ZIP_NAME) = some c0 := hread
  have hver : verify_file_hash sha fs (joinPath TOOLS_DIR ZIP_NAME)
      EXPECTED_HASH = false := by
    simp [verify_file_hash, hashFileResult, hread', hc0]
  have hex : fs.fileExists (joinPath TOOLS_DIR ZIP_NAME) = true := by
    simp [FS.fileExists, hread']
  have hagain : ((fs.unlink (joinPath TOOLS_DIR ZIP_NAME)).writeFile
      (joinPath TOOLS_DIR ZIP_NAME) bytes).readFile
      (joinPath TOOLS_DIR ZIP_NAME) = some bytes := by
    rw [readFile_writeFile]; simp
  have hver2 : verify_file_hash sha
      ((fs.unlink (joinPath TOOLS_DIR ZIP_NAME)).writeFile
        (joinPath TOOLS_DIR ZIP_NAME) bytes)
      (joinPath TOOLS_DIR ZIP_NAME) EXPECTED_HASH = false := by
    simp [verify_file_hash, hashFileResult, hagain, hbytes]
  have hdl : download_web_search_mcp sha (NetResult.ok bytes) TOOLS_DIR fs =
      ⟨false, none,
        ((fs.unlink ZIP_PATH).writeFile ZIP_PATH bytes).unlink ZIP_PATH,
        [Event.download]⟩ := by
    show download_web_search_mcp sha (NetResult.ok bytes) TOOLS_DIR fs =
      ⟨false, none,
        ((fs.unlink (joinPath TOOLS_DIR ZIP_NAME)).writeFile
          (joinPath TOOLS_DIR ZIP_NAME) bytes).unlink
          (joinPath TOOLS_DIR ZIP_NAME),
        [Event.download]⟩
    simp [download_web_search_mcp, attemptDownload, hex, hver, hver2]
  refine ⟨hver, hdl, ?_⟩
  rw [hdl]
  show (((fs.unlink ZIP_PATH).writeFile ZIP_PATH bytes).unlink
    ZIP_PATH).fileExists ZIP_PATH = false
  rw [fileExists_unlink]
  simp

/-- C2 witness: a concrete corrupted archive plus corrupted re-download. -/
theorem C2_mismatch_single_retry_witness :
    verify_file_hash (fun _ => "bad") ⟨[(ZIP_PATH, [0])], [], "/"⟩ ZIP_PATH
      EXPECTED_HASH = false ∧
    download_web_search_mcp (fun _ => "bad") (NetResult.ok [1]) TOOLS_DIR
        ⟨[(ZIP_PATH, [0])], [], "/"⟩ =
      ⟨false, none,
        (((⟨[(ZIP_PATH, [0])], [], "/"⟩ : FS).unlink ZIP_PATH).writeFile
          ZIP_PATH [1]).unlink ZIP_PATH,
        [Event.download]⟩ ∧
    ((download_web_search_mcp (fun _ => "bad") (NetResult.ok [1]) TOOLS_DIR
      ⟨[(ZIP_PATH, [0])], [], "/"⟩).fs).fileExists ZIP_PATH = false :=
  C2_mismatch_single_retry (fun _ => "bad") ⟨[(ZIP_PATH, [0])], [], "/"⟩
    [0] [1] (by decide) (by decide) (by decide)

/-- C6: the extractor derives the target directory deterministically from
the archive's base name with the extension dropped; if that directory
exists it succeeds immediately with no archive access and no filesystem
change, whatever the directory holds; otherwise it creates the directory
and unpacks every archive entry into it. -/
theorem C6_extractor_contract (unzip : Content → ZipContent)
    (zip_file : Path) (fs : FS) :
    stem ZIP_NAME = "web-search-mcp-v0.3.2" ∧
    (fs.dirExists (joinPath TOOLS_DIR (stem zip_file)) = true →
      install_web_search_mcp unzip zip_file fs =
        ⟨true, some (joinPath TOOLS_DIR (stem zip_file)), fs, []⟩) ∧
    (∀ bytes es, fs.dirExists (joinPath TOOLS_DIR (stem zip_file)) = false →
      fs.readFile zip_file = some bytes →
      unzip bytes = ZipContent.entries es →
      install_web_search_mcp unzip zip_file fs =
        ⟨true, some (joinPath TOOLS_DIR (stem zip_file)),
          extractAll (joinPath TOOLS_DIR (stem zip_file)) es
            (fs.mkdir (joinPath TOOLS_DIR (stem zip_file))),
          es.map (fun e => Event.extractEntry e.1)⟩ ∧
      ((install_web_search_mcp unzip zip_file fs).fs).dirExists
        (joinPath TOOLS_DIR (stem zip_file)) = true ∧
      ∀ e ∈ es, ((install_web_search_mcp unzip zip_file fs).fs).fileExists
        (joinPath (joinPath TOOLS_DIR (stem zip_file)) e.1) = true) := by
  refine ⟨by decide, ?_, ?_⟩
  · intro hdir
    simp [install_web_search_mcp, hdir]
  · intro bytes es hdir hread hunzip
    have hinst : install_web_search_mcp unzip zip_file fs =
        ⟨true, some (joinPath TOOLS_DIR (stem zip_file)),
          extractAll (joinPath TOOLS_DIR (stem zip_file)) es
            (fs.mkdir (joinPath TOOLS_DIR (stem zip_file))),
          es.map (fun e => Event.extractEntry e.1)⟩ := by
      simp [install_web_search_mcp, hdir, readFile_mkdir, hread, hunzip]
    refine ⟨hinst, ?_, ?_⟩
    · rw [hinst]
      show FS.dirExists _ _ = true
      unfold FS.dirExists
      rw [extractAll_dirs]
      exact dirExists_mkdir_self fs (joinPath TOOLS_DIR (stem zip_file))
    · intro e he
      rw [hinst]
      exact extractAll_fileExists_mem _ es _ e he

/-- C6 witness: extracting a one-entry archive into a fresh directory. -/
theorem C6_extractor_contract_witness :
    install_web_search_mcp (fun _ => ZipContent.entries [("a", [1])])
        ZIP_PATH ⟨[(ZIP_PATH, [7])], [], "/"⟩ =
      ⟨true, some (joinPath TOOLS_DIR (stem ZIP_PATH)),
        extractAll (joinPath TOOLS_DIR (stem ZIP_PATH)) [("a", [1])]
          ((⟨[(ZIP_PATH, [7])], [], "/"⟩ : FS).mkdir
            (joinPath TOOLS_DIR (stem ZIP_PATH))),
        List.map (fun e => Event.extractEntry e.1) [("a", [1])]⟩ ∧
    ((install_web_search_mcp (fun _ => ZipContent.entries [("a", [1])])
      ZIP_PATH ⟨[(ZIP_PATH, [7])], [], "/"⟩).fs).dirExists
      (joinPath TOOLS_DIR (stem ZIP_PATH)) = true ∧
    ∀ e ∈ [(("a" : String), ([1] : Content))],
      ((install_web_search_mcp (fun _ => ZipContent.entries [("a", [1])])
        ZIP_PATH ⟨[(ZIP_PATH, [7])], [], "/"⟩).fs).fileExists
        (joinPath (joinPath TOOLS_DIR (stem ZIP_PATH)) e.1) = true :=
  (C6_extractor_contract (fun _ => ZipContent.entries [("a", [1])]) ZIP_PATH
    ⟨[(ZIP_PATH, [7])], [], "/"⟩).2.2 [7] [("a", [1])]
    (by decide) (by decide) rfl

/-- C9: the extraction directory is created before the archive is opened
and survives a failed extraction: on a malformed archive the extractor
fails with the empty directory left on disk, and an immediately subsequent
run skips extraction and reports success although no entry was ever
unpacked. -/
theorem C9_failed_extraction_leaves_dir (unzip : Content → ZipContent)
    (fs : FS) (bytes : Content)
    (hdir : fs.dirExists EXTRACT_DIR = false)
    (hread : fs.readFile ZIP_PATH = some bytes)
    (hbad : unzip bytes = ZipContent.badZip) :
    install_web_search_mcp unzip ZIP_PATH fs =
      ⟨false, none, fs.mkdir EXTRACT_DIR, []⟩ ∧
    ((install_web_search_mcp unzip ZIP_PATH fs).fs).dirExists EXTRACT_DIR =
      true ∧
    install_web_search_mcp unzip ZIP_PATH
        ((install_web_search_mcp unzip ZIP_PATH fs).fs) =
      ⟨true, some EXTRACT_DIR, (install_web_search_mcp unzip ZIP_PATH fs).fs,
        []⟩ := by
  have hdir' : fs.dirExists (joinPath TOOLS_DIR (stem ZIP_PATH)) = false :=
    hdir
  have h1 : install_web_search_mcp unzip ZIP_PATH fs =
      ⟨false, none, fs.mkdir (joinPath TOOLS_DIR (stem ZIP_PATH)), []⟩ := by
    simp [install_web_search_mcp, hdir', readFile_mkdir, hread, hbad]
  refine ⟨h1, ?_, ?_⟩
  · rw [h1]
    exact dirExists_mkdir_self fs (joinPath TOOLS_DIR (stem ZIP_PATH))
  · rw [h1]
    show install_web_search_mcp unzip ZIP_PATH
        (fs.mkdir (joinPath TOOLS_DIR (stem ZIP_PATH))) =
      ⟨true, some (joinPath TOOLS_DIR (stem ZIP_PATH)),
        fs.mkdir (joinPath TOOLS_DIR (stem ZIP_PATH)), []⟩
    simp [install_web_search_mcp, dirExists_mkdir_self]

/-- C9 witness: a malformed archive on a fresh filesystem. -/
theorem C9_failed_extraction_leaves_dir_witness :
    install_web_search_mcp (fun _ => ZipContent.badZip) ZIP_PATH
        ⟨[(ZIP_PATH, [9])], [], "/"⟩ =
      ⟨false, none,
        (⟨[(ZIP_PATH, [9])], [], "/"⟩ : FS).mkdir EXTRACT_DIR, []⟩ ∧
    ((install_web_search_mcp (fun _ => ZipContent.badZip) ZIP_PATH
      ⟨[(ZIP_PATH, [9])], [], "/"⟩).fs).dirExists EXTRACT_DIR = true ∧
    install_web_search_mcp (fun _ => ZipContent.badZip) ZIP_PATH
        ((install_web_search_mcp (fun _ => ZipContent.badZip) ZIP_PATH
          ⟨[(ZIP_PATH, [9])], [], "/"⟩).fs) =
      ⟨true, some EXTRACT_DIR,
        (install_web_search_mcp (fun _ => ZipContent.badZip) ZIP_PATH
          ⟨[(ZIP_PATH, [9])], [], "/"⟩).fs, []⟩ :=
  C9_failed_extraction_leaves_dir (fun _ => ZipContent.badZip)
    ⟨[(ZIP_PATH, [9])], [], "/"⟩ [9] (by decide) (by decide) rfl

/-- The code's padded release comparison agrees with plain
major.minor.patch ordering on version triples. -/
theorem verGe_triple (a1 a2 a3 b1 b2 b3 : Nat) :
    verGe [a1, a2, a3] [b1, b2, b3] = true ↔
      (b1 < a1 ∨ (b1 = a1 ∧ (b2 < a2 ∨ (b2 = a2 ∧ b3 ≤ a3)))) := by
  simp only [verGe]
  split_ifs <;> simp_all <;> omega

/-- A requirement whose parsed version compares below the minimum makes
`check_command_version` report failure. -/
theorem check_fails_of_verGe_false (runVer : String → ProcResult)
    (command min_version out version_str : String) (v m : List Nat)
    (hrun : runVer command = ProcResult.ok out)
    (hvs : versionStrOf command (strip out) = some version_str)
    (hcv : parseVer version_str = some v)
    (hmv : parseVer min_version = some m)
    (hlt : verGe v m = false) :
    (check_command_version runVer command min_version).1 = false := by
  simp [check_command_version, hrun, hvs, hcv, hmv, hlt]

/-- C4: when the command's parsed semantic version is at least the minimum
under major.minor.patch ordering, the check passes; when it is strictly
below, the check fails with a status message that contains both the found
version and the required minimum. -/
theorem C4_version_comparison (runVer : String → ProcResult)
    (command min_version out version_str : String)
    (a1 a2 a3 b1 b2 b3 : Nat)
    (hrun : runVer command = ProcResult.ok out)
    (hvs : versionStrOf command (strip out) = some version_str)
    (hcv : parseVer version_str = some [a1, a2, a3])
    (hmv : parseVer min_version = some [b1, b2, b3]) :
    ((b1 < a1 ∨ (b1 = a1 ∧ (b2 < a2 ∨ (b2 = a2 ∧ b3 ≤ a3)))) →
      check_command_version runVer command min_version =
        (true, command ++ " " ++ version_str ++ " ✅")) ∧
    ((a1 < b1 ∨ (a1 = b1 ∧ (a2 < b2 ∨ (a2 = b2 ∧ a3 < b3)))) →
      check_command_version runVer command min_version =
        (false, command ++ " " ++ version_str ++ " (requires " ++
          min_version ++ "+) ❌") ∧
      ∃ s t u, command ++ " " ++ version_str ++ " (requires " ++
          min_version ++ "+) ❌" =
        s ++ version_str ++ t ++ min_version ++ u) := by
  constructor
  · intro hge
    have hb : verGe [a1, a2, a3] [b1, b2, b3] = true :=
      (verGe_triple a1 a2 a3 b1 b2 b3).mpr hge
    simp [check_command_version, hrun, hvs, hcv, hmv, hb]
  · intro hlt
    have hb : verGe [a1, a2, a3] [b1, b2, b3] = false := by
      rw [← Bool.not_eq_true, verGe_triple]
      omega
    refine ⟨by simp [check_command_version, hrun, hvs, hcv, hmv, hb], ?_⟩
    refine ⟨command ++ " ", " (requires ", "+) ❌", ?_⟩
    simp [String.append_assoc]

/-- C4 witness: node 18.17.0 satisfies the 18.0.0 minimum. -/
theorem C4_version_comparison_witness :
    check_command_version (fun _ => ProcResult.ok "v18.17.0") "node"
      "18.0.0" = (true, "node" ++ " " ++ "18.17.0" ++ " ✅") :=
  (C4_version_comparison (fun _ => ProcResult.ok "v18.17.0") "node"
    "18.0.0" "v18.17.0" "18.17.0" 18 17 0 18 0 0 rfl (by decide)
    (by decide) (by decide)).1 (by omega)

/-- C5: when some required runtime reports a version below its pinned
minimum, the requirement check fails and `main` exits with code 1 having
produced an empty event trace — in particular no network download — and an
unchanged filesystem. -/
theorem C5_low_version_exits_before_network (w : World) (fs : FS)
    (h : ∃ r ∈ requirements, ∃ out version_str v m,
      w.runVer r.1 = ProcResult.ok out ∧
      versionStrOf r.1 (strip out) = some version_str ∧
      parseVer version_str = some v ∧
      parseVer r.2 = some m ∧
      verGe v m = false) :
    check_requirements w.runVer = false ∧
    main w fs = ⟨1, fs, []⟩ ∧
    Event.download ∉ (main w fs).events := by
  obtain ⟨r, hr, out, vs, v, m, hrun, hvs, hcv, hmv, hlt⟩ := h
  have hfail : (check_command_version w.runVer r.1 r.2).1 = false :=
    check_fails_of_verGe_false w.runVer r.1 r.2 out vs v m hrun hvs hcv hmv
      hlt
  have hreq : check_requirements w.runVer = false := by
    have hcases : r = ("node", "18.0.0") ∨ r = ("npm", "8.0.0") := by
      simpa [requirements] using hr
    unfold check_requirements requirements
    simp only [List.foldl_cons, List.foldl_nil]
    rcases hcases with hc | hc <;> subst hc <;> simp_all
  have hm : main w fs = ⟨1, fs, []⟩ := by simp [main, hreq]
  exact ⟨hreq, hm, by rw [hm]; simp⟩

/-- C5 witness: node reporting 17.0.0 against the pinned 18.0.0 minimum
halts the pipeline with no events. -/
theorem C5_low_version_exits_before_network_witness :
    check_requirements (fun _ => ProcResult.ok "v17.0.0") = false ∧
    main
        ⟨fun _ => ProcResult.ok "v17.0.0", fun _ => "", NetResult.urlErr,
          fun _ => ZipContent.badZip, fun _ g => (true, g)⟩
        ⟨[], [], "/"⟩ =
      ⟨1, ⟨[], [], "/"⟩, []⟩ ∧
    Event.download ∉
      (main
        ⟨fun _ => ProcResult.ok "v17.0.0", fun _ => "", NetResult.urlErr,
          fun _ => ZipContent.badZip, fun _ g => (true, g)⟩
        ⟨[], [], "/"⟩).events :=
  C5_low_version_exits_before_network
    ⟨fun _ => ProcResult.ok "v17.0.0", fun _ => "", NetResult.urlErr,
      fun _ => ZipContent.badZip, fun _ g => (true, g)⟩
    ⟨[], [], "/"⟩
    ⟨("node", "18.0.0"), by decide, "v17.0.0", "17.0.0", [17, 0, 0],
      [18, 0, 0], rfl, by decide, by decide, by decide, by decide⟩

/-- C3: for post-install commands that neither create nor delete the
completion marker and cannot change the parent process's working
directory, `run_npm_setup` creates the marker exactly on the path where
both commands exit zero and `dist/index.js` exists (so the marker is
present afterwards iff the stage succeeded, and success implies both
commands ran and the artifact exists); and when the marker already exists
it returns success immediately, running no command. -/
theorem C3_marker_invariant (exec : List String → FS → Bool × FS)
    (extract_dir : Path) (fs : FS)
    (Hm : ∀ c g, ((exec c g).2).fileExists
        (joinPath extract_dir ".setup_complete") =
      g.fileExists (joinPath extract_dir ".setup_complete"))
    (Hc : ∀ c g, ((exec c g).2).cwd = g.cwd) :
    (fs.fileExists (joinPath extract_dir ".setup_complete") = true →
      run_npm_setup exec extract_dir fs = ⟨true, fs, []⟩) ∧
    (fs.fileExists (joinPath extract_dir ".setup_complete") = false →
      (((run_npm_setup exec extract_dir fs).fs).fileExists
          (joinPath extract_dir ".setup_complete") = true ↔
        (run_npm_setup exec extract_dir fs).success = true)) ∧
    (fs.fileExists (joinPath extract_dir ".setup_complete") = false →
      (run_npm_setup exec extract_dir fs).success = true →
      (run_npm_setup exec extract_dir fs).events =
        [Event.cmd NPM_INSTALL, Event.cmd PLAYWRIGHT_INSTALL] ∧
      ((run_npm_setup exec extract_dir fs).fs).fileExists
        (joinPath extract_dir "dist/index.js") = true) := by
  have key : fs.fileExists (joinPath extract_dir ".setup_complete") =
      false →
      ((run_npm_setup exec extract_dir fs).success = false ∧
        ((run_npm_setup exec extract_dir fs).fs).fileExists
          (joinPath extract_dir ".setup_complete") = false) ∨
      ((run_npm_setup exec extract_dir fs).success = true ∧
        ((run_npm_setup exec extract_dir fs).fs).fileExists
          (joinPath extract_dir ".setup_complete") = true ∧
        (run_npm_setup exec extract_dir fs).events =
          [Event.cmd NPM_INSTALL, Event.cmd PLAYWRIGHT_INSTALL] ∧
        ((run_npm_setup exec extract_dir fs).fs).fileExists
          (joinPath extract_dir "dist/index.js") = true) := by
    intro hmark
    by_cases hdir : fs.dirExists extract_dir = true
    · cases hr1 : (exec NPM_INSTALL (fs.setCwd extract_dir)).1 with
      | false =>
        have hres : run_npm_setup exec extract_dir fs =
            ⟨false,
              ((exec NPM_INSTALL (fs.setCwd extract_dir)).2).setCwd fs.cwd,
              [Event.cmd NPM_INSTALL]⟩ := by
          simp [run_npm_setup, hmark, hdir, hr1]
        left
        rw [hres]
        refine ⟨rfl, ?_⟩
        show (((exec NPM_INSTALL (fs.setCwd extract_dir)).2).setCwd
          fs.cwd).fileExists (joinPath extract_dir ".setup_complete") = false
        rw [fileExists_setCwd, Hm, fileExists_setCwd]
        exact hmark
      | true =>
        cases hr2 : (exec PLAYWRIGHT_INSTALL
            ((exec NPM_INSTALL (fs.setCwd extract_dir)).2)).1 with
        | false =>
          have hres : run_npm_setup exec extract_dir fs =
              ⟨false,
                ((exec PLAYWRIGHT_INSTALL
                  ((exec NPM_INSTALL (fs.setCwd extract_dir)).2)).2).setCwd
                  fs.cwd,
                [Event.cmd NPM_INSTALL, Event.cmd PLAYWRIGHT_INSTALL]⟩ := by
            simp [run_npm_setup, hmark, hdir, hr1, hr2]
          left
          rw [hres]
          refine ⟨rfl, ?_⟩
          show (((exec PLAYWRIGHT_INSTALL
            ((exec NPM_INSTALL (fs.setCwd extract_dir)).2)).2).setCwd
            fs.cwd).fileExists (joinPath extract_dir ".setup_complete") =
            false
          rw [fileExists_setCwd, Hm, Hm, fileExists_setCwd]
          exact hmark
        | true =>
          have hcwd : ((exec PLAYWRIGHT_INSTALL
              ((exec NPM_INSTALL (fs.setCwd extract_dir)).2)).2).cwd =
              extract_dir := by
            rw [Hc, Hc, setCwd_cwd]
          by_cases hart : ((exec PLAYWRIGHT_INSTALL
              ((exec NPM_INSTALL (fs.setCwd extract_dir)).2)).2).fileExists
              (joinPath ((exec PLAYWRIGHT_INSTALL
                ((exec NPM_INSTALL (fs.setCwd extract_dir)).2)).2).cwd
                "dist/index.js") = true
          · have hart' := hart
            rw [hcwd] at hart'
            have hres : run_npm_setup exec extract_dir fs =
                ⟨true,
                  (((exec PLAYWRIGHT_INSTALL
                    ((exec NPM_INSTALL (fs.setCwd extract_dir)).2)).2).writeFile
                    (joinPath extract_dir ".setup_complete") []).setCwd fs.cwd,
                  [Event.cmd NPM_INSTALL, Event.cmd PLAYWRIGHT_INSTALL]⟩ := by
              simp [run_npm_setup, hmark, hdir, hr1, hr2, hart]
            right
            rw [hres]
            refine ⟨rfl, ?_, rfl, ?_⟩
            · show ((((exec PLAYWRIGHT_INSTALL
                ((exec NPM_INSTALL (fs.setCwd extract_dir)).2)).2).writeFile
                (joinPath extract_dir ".setup_complete") []).setCwd
                fs.cwd).fileExists (joinPath extract_dir ".setup_complete") =
                true
              rw [fileExists_setCwd, fileExists_writeFile]
              simp
            · show ((((exec PLAYWRIGHT_INSTALL
                ((exec NPM_INSTALL (fs.setCwd extract_dir)).2)).2).writeFile
                (joinPath extract_dir ".setup_complete") []).setCwd
                fs.cwd).fileExists (joinPath extract_dir "dist/index.js") =
                true
              rw [fileExists_setCwd, fileExists_writeFile]
              split
              · rfl
              · exact hart'
          · have hres : run_npm_setup exec extract_dir fs =
                ⟨false,
                  ((exec PLAYWRIGHT_INSTALL
                    ((exec NPM_INSTALL (fs.setCwd extract_dir)).2)).2).setCwd
                    fs.cwd,
                  [Event.cmd NPM_INSTALL, Event.cmd PLAYWRIGHT_INSTALL]⟩ := by
              simp [run_npm_setup, hmark, hdir, hr1, hr2, hart]
            left
            rw [hres]
            refine ⟨rfl, ?_⟩
            show (((exec PLAYWRIGHT_INSTALL
              ((exec NPM_INSTALL (fs.setCwd extract_dir)).2)).2).setCwd
              fs.cwd).fileExists (joinPath extract_dir ".setup_complete") =
              false
            rw [fileExists_setCwd, Hm, Hm, fileExists_setCwd]
            exact hmark
    · have hres : run_npm_setup exec extract_dir fs = ⟨false, fs, []⟩ := by
        simp [run_npm_setup, hmark, hdir]
      left
      rw [hres]
      exact ⟨rfl, hmark⟩
  refine ⟨fun hmark => by simp [run_npm_setup, hmark], ?_, ?_⟩
  · intro hmark
    rcases key hmark with ⟨h1, h2⟩ | ⟨h1, h2, h3, h4⟩
    · rw [h1, h2]
    · rw [h1, h2]
  · intro hmark hsucc
    rcases key hmark with ⟨h1, h2⟩ | ⟨h1, h2, h3, h4⟩
    · rw [h1] at hsucc
      simp at hsucc
    · exact ⟨h3, h4⟩

/-- C3 witness: identity-effect commands on a directory that contains the
artifact lead to a successful run that executes both commands. -/
theorem C3_marker_invariant_witness :
    (run_npm_setup (fun _ g => (true, g)) "d"
      ⟨[("d/dist/index.js", [])], ["d"], "/"⟩).events =
      [Event.cmd NPM_INSTALL, Event.cmd PLAYWRIGHT_INSTALL] ∧
    ((run_npm_setup (fun _ g => (true, g)) "d"
      ⟨[("d/dist/index.js", [])], ["d"], "/"⟩).fs).fileExists
      (joinPath "d" "dist/index.js") = true :=
  (C3_marker_invariant (fun _ g => (true, g)) "d"
    ⟨[("d/dist/index.js", [])], ["d"], "/"⟩ (fun _ _ => rfl)
    (fun _ _ => rfl)).2.2 (by decide) (by decide)

end Installer
